import Mathlib

/-!
Verification of the batched decoding pipeline of this repository.

The development shallowly embeds the code relevant to the checked claims:

* `SamplingConfig.fuseValues` and the fusing constructor
  `SamplingConfig(std::vector<SamplingConfig> const&)` from
  `cpp/include/tensorrt_llm/runtime/samplingConfig.h`;
* `DecodingMode` from `cpp/include/tensorrt_llm/runtime/decodingMode.h`;
* `createDecodingLayerTypes` from `cpp/tensorrt_llm/layers/layersFactory.h`;
* the random-seed handling of `SamplingLayer::setup` and the softmax-skip
  condition of `SamplingLayer::forward` from
  `cpp/tensorrt_llm/layers/samplingLayer.cpp`;
* the stop-criteria kernels and the Medusa tree-acceptance kernel, whose
  implementations live outside the checked sources (only their tests are
  present); these are modelled from the specification.

C++ machine types: `SizeType32`/`TokenIdType` (32-bit ints whose values are
only copied, never overflowed here) are modelled as `Int`, `uint64_t` as
`Nat`, and the C++ `float` (`FloatType`), whose values are only moved by the
fusion code, as an arbitrary type parameter `F`.  A fallible C++ call
(`TLLM_CHECK` throwing) is modelled as `Except String`.
-/

namespace TensorRTLLM

/-- The body of the second loop of `SamplingConfig::fuseValues`
(samplingConfig.h, lines 55-65): per config, start from the default and, if
the config has a value, `TLLM_CHECK(configValue.value().size() == 1)` and
take `front()`. -/
def fuseOne {T : Type} (defaultValue : T) (configValue : Option (List T)) :
    Except String T :=
  match configValue with
  | some v =>
    match v with
    | [x] => Except.ok x
    | _ => Except.error "TLLM_CHECK(configValue.value().size() == 1)"
  | none => Except.ok defaultValue

/-- The second loop of `SamplingConfig::fuseValues`: push the checked value
of each config in order, aborting at the first failed check (the C++ throw). -/
def fuseList {T : Type} (defaultValue : T) :
    List (Option (List T)) → Except String (List T)
  | [] => Except.ok []
  | configValue :: rest => do
    let value ← fuseOne defaultValue configValue
    let values ← fuseList defaultValue rest
    Except.ok (value :: values)

/-- Embedding of `SamplingConfig::fuseValues` (samplingConfig.h, lines 38-73).
The C++ takes the config list and an accessor; the embedding takes the list
of accessor results, one `Option (List T)` per config.  The first loop of the
source (break on the first config with a value) is `List.any Option.isSome`;
the second loop is `fuseList`. -/
def fuseValues {T : Type} (configValues : List (Option (List T))) (defaultValue : T) :
    Except String (Option (List T)) :=
  let atLeastOneHasValue := configValues.any Option.isSome
  if atLeastOneHasValue then do
    let values ← fuseList defaultValue configValues
    Except.ok (some values)
  else
    Except.ok none

/-- The per-field documented defaults (`layers::DefaultDecodingParams`);
the header defining the concrete values is outside the checked sources,
so the record is kept abstract: the fusing constructor is parametrised by it. -/
structure DefaultDecodingParams (F : Type) where
  temperature : F
  minLength : Int
  repetitionPenalty : F
  presencePenalty : F
  frequencyPenalty : F
  topK : Int
  topP : F
  seed : Nat
  topPDecay : F
  topPMin : F
  topPResetId : Int
  beamSearchDiversity : F
  lengthPenalty : F
  earlyStopping : Int
  topKMedusaHeads : List Int

/-- Embedding of `runtime::SamplingConfig` (samplingConfig.h): `beamWidth`
plus one optional vector per tunable field, and the optional
`normalizeLogProbs` flag. -/
structure SamplingConfig (F : Type) where
  beamWidth : Int
  temperature : Option (List F)
  minLength : Option (List Int)
  repetitionPenalty : Option (List F)
  presencePenalty : Option (List F)
  frequencyPenalty : Option (List F)
  topK : Option (List Int)
  topP : Option (List F)
  randomSeed : Option (List Nat)
  topPDecay : Option (List F)
  topPMin : Option (List F)
  topPResetIds : Option (List Int)
  beamSearchDiversityRate : Option (List F)
  lengthPenalty : Option (List F)
  earlyStopping : Option (List Int)
  draftAcceptanceThreshold : Option (List F)
  topKMedusaHeads : Option (List (List Int))
  normalizeLogProbs : Option Bool
  deriving DecidableEq

/-- Embedding of the fusing constructor
`SamplingConfig::SamplingConfig(std::vector<SamplingConfig> const&)`
(samplingConfig.h, lines 84-135): `TLLM_CHECK(configs.size() > 0)`,
`beamWidth` and `normalizeLogProbs` from `configs.front()`, and every
tunable field fused by `fuseValues` with its documented default
(`draftAcceptanceThreshold` with the literal default `0`). -/
def SamplingConfig.fuse {F : Type} [Zero F] (dp : DefaultDecodingParams F)
    (configs : List (SamplingConfig F)) : Except String (SamplingConfig F) :=
  match configs with
  | [] => Except.error "TLLM_CHECK(configs.size() > 0)"
  | c0 :: _ => do
    let temperature ← fuseValues (configs.map (·.temperature)) dp.temperature
    let minLength ← fuseValues (configs.map (·.minLength)) dp.minLength
    let repetitionPenalty ← fuseValues (configs.map (·.repetitionPenalty)) dp.repetitionPenalty
    let presencePenalty ← fuseValues (configs.map (·.presencePenalty)) dp.presencePenalty
    let frequencyPenalty ← fuseValues (configs.map (·.frequencyPenalty)) dp.frequencyPenalty
    let topK ← fuseValues (configs.map (·.topK)) dp.topK
    let topP ← fuseValues (configs.map (·.topP)) dp.topP
    let randomSeed ← fuseValues (configs.map (·.randomSeed)) dp.seed
    let topPDecay ← fuseValues (configs.map (·.topPDecay)) dp.topPDecay
    let topPMin ← fuseValues (configs.map (·.topPMin)) dp.topPMin
    let topPResetIds ← fuseValues (configs.map (·.topPResetIds)) dp.topPResetId
    let beamSearchDiversityRate ←
      fuseValues (configs.map (·.beamSearchDiversityRate)) dp.beamSearchDiversity
    let lengthPenalty ← fuseValues (configs.map (·.lengthPenalty)) dp.lengthPenalty
    let earlyStopping ← fuseValues (configs.map (·.earlyStopping)) dp.earlyStopping
    let topKMedusaHeads ← fuseValues (configs.map (·.topKMedusaHeads)) dp.topKMedusaHeads
    let draftAcceptanceThreshold ←
      fuseValues (configs.map (·.draftAcceptanceThreshold)) (0 : F)
    Except.ok
      { beamWidth := c0.beamWidth
        temperature := temperature
        minLength := minLength
        repetitionPenalty := repetitionPenalty
        presencePenalty := presencePenalty
        frequencyPenalty := frequencyPenalty
        topK := topK
        topP := topP
        randomSeed := randomSeed
        topPDecay := topPDecay
        topPMin := topPMin
        topPResetIds := topPResetIds
        beamSearchDiversityRate := beamSearchDiversityRate
        lengthPenalty := lengthPenalty
        earlyStopping := earlyStopping
        draftAcceptanceThreshold := draftAcceptanceThreshold
        topKMedusaHeads := topKMedusaHeads
        normalizeLogProbs := c0.normalizeLogProbs }

/-- Embedding of `runtime::DecodingMode` (decodingMode.h): an 8-bit state;
the values reachable through the named factories fit in `Nat`. -/
structure DecodingMode where
  mState : Nat
  deriving DecidableEq

namespace DecodingMode

def kNone : Nat := 0
def kTopK : Nat := 1
def kTopP : Nat := 2
def kBeamSearch : Nat := 4
def kMedusa : Nat := 8
def kTopKTopP : Nat := kTopK ||| kTopP

def None : DecodingMode := ⟨kNone⟩
def TopK : DecodingMode := ⟨kTopK⟩
def TopP : DecodingMode := ⟨kTopP⟩
def TopKTopP : DecodingMode := ⟨kTopKTopP⟩
def BeamSearch : DecodingMode := ⟨kBeamSearch⟩
def Medusa : DecodingMode := ⟨kMedusa⟩

def anyBitSet (m : DecodingMode) (bits : Nat) : Bool :=
  m.mState &&& bits ≠ 0

def allBitSet (m : DecodingMode) (bits : Nat) : Bool :=
  m.mState &&& bits = bits

def isNone (m : DecodingMode) : Bool := m.mState = 0

def isTopK (m : DecodingMode) : Bool := m.anyBitSet kTopK

def isTopP (m : DecodingMode) : Bool := m.anyBitSet kTopP

def isTopKorTopP (m : DecodingMode) : Bool := m.anyBitSet kTopKTopP

def isTopKandTopP (m : DecodingMode) : Bool := m.allBitSet kTopKTopP

def isBeamSearch (m : DecodingMode) : Bool := m.anyBitSet kBeamSearch

def isMedusa (m : DecodingMode) : Bool := m.anyBitSet kMedusa

end DecodingMode

/-- Embedding of `layers::DecodingLayers_t` (layersFactory.h). -/
inductive DecodingLayers_t where
  | PENALTY_LAYER
  | BAN_WORDS_LAYER
  | DECODING_LAYER
  | STOP_CRITERIA_LAYER
  deriving DecidableEq

/-- Embedding of `createDecodingLayerTypes` (layersFactory.h, lines 37-53):
the sampling and beam-search families get the four-stage list, Medusa the
three-stage list, and any other mode hits
`TLLM_CHECK_WITH_INFO(false, "layer types are not defined for mode ...")`. -/
def createDecodingLayerTypes (mode : DecodingMode) :
    Except String (List DecodingLayers_t) :=
  if mode.isTopKorTopP || mode.isBeamSearch then
    Except.ok [DecodingLayers_t.PENALTY_LAYER, DecodingLayers_t.BAN_WORDS_LAYER,
      DecodingLayers_t.DECODING_LAYER, DecodingLayers_t.STOP_CRITERIA_LAYER]
  else if mode.isMedusa then
    Except.ok [DecodingLayers_t.PENALTY_LAYER, DecodingLayers_t.DECODING_LAYER,
      DecodingLayers_t.STOP_CRITERIA_LAYER]
  else
    Except.error "layer types are not defined for mode"

/-- Embedding of the softmax-skip condition of `SamplingLayer::forward`
(samplingLayer.cpp, lines 176-179): `skipTopP = !mDecodingMode.isTopP()` and
`skipSoftMax = skipTopP && cumLogProbs == nullptr && outputLogProbs ==
nullptr`. -/
def skipSoftMax (mode : DecodingMode) (cumLogProbsRequested outputLogProbsRequested : Bool) :
    Bool :=
  let skipTopP := !mode.isTopP
  skipTopP && !cumLogProbsRequested && !outputLogProbsRequested

/-- Embedding of the random-seed handling of `SamplingLayer::setup`
(samplingLayer.cpp, lines 125-145), returning the per-batch-entry seed each
slot's curand state is initialised from: a single seed is broadcast
(`invokeCurandInitialize` with `front()`), a batch of seeds is used per slot
(`invokeCurandBatchInitialize`, after
`TLLM_CHECK_WITH_INFO(randomSeed->size() == batchSize, ...)`), and an absent
seed initialises every state with the default seed 0. -/
def setupRandomSeeds (randomSeed : Option (List Nat)) (batchSize : Nat) :
    Except String (List Nat) :=
  match randomSeed with
  | some seeds =>
    if seeds.length = 1 then
      Except.ok (List.replicate batchSize (seeds.headD 0))
    else if seeds.length = batchSize then
      Except.ok seeds
    else
      Except.error "Random seed vector size mismatch."
  | none => Except.ok (List.replicate batchSize 0)

/-- Modelled from the spec: the softmax over a logits row (the elementwise
softmax kernel `invokeAddBiasSoftMax` is outside the checked sources; the
spec specifies its semantics: normalised exponentials). -/
noncomputable def softmax (l : List ℝ) : List ℝ :=
  l.map (fun x => Real.exp x / (l.map Real.exp).sum)

/-- `i` is the index the greedy selection chooses from row `l`: a maximal
entry, ties broken toward the smallest index (the spec's deterministic
tie-break by ascending token id). -/
def firstArgMax (l : List ℝ) (i : Nat) : Prop :=
  i < l.length ∧ (∀ j, j < l.length → l.getD j 0 ≤ l.getD i 0) ∧
    ∀ j, j < i → l.getD j 0 < l.getD i 0

/-- Per-(slot, beam) finished status (`kernels::FinishedState`). -/
inductive FinishedState where
  | notFinished
  | finishedEos
  | finishedMaxLength
  | finishedStopWords
  deriving DecidableEq, Inhabited

def FinishedState.isFinished : FinishedState → Bool
  | .notFinished => false
  | _ => true

/-- One batch slot as the stop-criteria kernels see it: the slot's
sequence-length limit and, per beam, the current sequence length and
finished state. -/
structure SlotState where
  limit : Nat
  beams : List (Nat × FinishedState)
  deriving DecidableEq, Inhabited

/-- Modelled from the spec: the per-slot step of the max-length stop
criterion (`invokeLengthCriterion`, whose kernel is outside the checked
sources): mark a beam finished-by-max-length when its current length is at
least the slot's configured sequence-length limit. -/
def lengthCriterionSlot (s : SlotState) : SlotState :=
  { s with
    beams := s.beams.map (fun b =>
      (b.1, if s.limit ≤ b.1 then FinishedState.finishedMaxLength else b.2)) }

/-- The finished-sum aggregate of one slot: the count of its finished beams. -/
def slotFinishedSum (s : SlotState) : Nat :=
  (s.beams.filter (fun b => b.2.isFinished)).length

/-- Modelled from the spec: the batched max-length criterion over the active
slots, returning the updated slots and the recomputed per-slot
finished-sums. -/
def lengthCriterion (slots : List SlotState) : List SlotState × List Nat :=
  (slots.map lengthCriterionSlot, slots.map (fun s => slotFinishedSum (lengthCriterionSlot s)))

/-- Modelled from the spec: one stop phrase matches one beam when the phrase
is non-empty, fits into the current length, and equals the tail of the
emitted sequence ending exactly at the current length. -/
def matchesStopWord (tokens : List Int) (seqLen : Nat) (w : List Int) : Bool :=
  !w.isEmpty && decide (w.length ≤ seqLen) &&
    decide ((tokens.take seqLen).drop (seqLen - w.length) = w)

/-- Modelled from the spec: the stop-words criterion for one (slot, beam)
(`invokeStopWordsCriterion`, whose kernel is outside the checked sources):
mark finished-by-stop-words when any configured stop phrase of the slot
matches the tail of the emitted sequence at the current length. -/
def stopWordsCriterionBeam (stopWords : List (List Int)) (tokens : List Int)
    (seqLen : Nat) (finished : FinishedState) : FinishedState :=
  if stopWords.any (matchesStopWord tokens seqLen) then
    FinishedState.finishedStopWords
  else
    finished

/-- Modelled from the spec: the accepted length of one speculative path
(§4.7): the longest prefix of the path whose entries are used tree slots
(not `-1`, and inside the tree) holding exactly the target model's realized
token at that depth. -/
def acceptLen (treeTokens : List Int) : List Int → List Int → Nat
  | p :: ps, t :: ts =>
    if 0 ≤ p ∧ treeTokens.get? p.toNat = some t then
      1 + acceptLen treeTokens ps ts
    else
      0
  | _, _ => 0

/-- Modelled from the spec: choose the accepted path per slot — a path of
maximal accepted length, ties broken toward the path listed first.  Returns
(index of the chosen path, its accepted length). -/
def bestPath (treeTokens targets : List Int) : List (List Int) → Nat × Nat
  | [] => (0, 0)
  | p :: ps =>
    let l := acceptLen treeTokens p targets
    let best := bestPath treeTokens targets ps
    if l < best.2 then (best.1 + 1, best.2) else (0, l)

/-- Modelled from the spec: the tokens the verification appends to the
history — the accepted prefix of the target model's realized tokens. -/
def acceptedTokens (treeTokens targets : List Int) (paths : List (List Int)) : List Int :=
  targets.take (bestPath treeTokens targets paths).2

/-! Helper lemmas. -/

theorem fuseList_ok_length {T : Type} (d : T) :
    ∀ (vals : List (Option (List T))) (out : List T),
      fuseList d vals = Except.ok out → out.length = vals.length := by
  intro vals
  induction vals with
  | nil =>
    intro out h
    simp only [fuseList] at h
    cases h
    rfl
  | cons v vs ih =>
    intro out h
    simp only [fuseList] at h
    cases hv : fuseOne d v with
    | error e => simp [hv, bind, Except.bind] at h
    | ok b =>
      cases hl : fuseList d vs with
      | error e => simp [hv, hl, bind, Except.bind] at h
      | ok bs =>
        simp only [hv, hl, bind, Except.bind, Except.ok.injEq] at h
        subst h
        simp [ih bs hl]

theorem fuseList_ok_of_singletons {T : Type} (d : T) :
    ∀ (vals : List (Option (List T))), (∀ l, some l ∈ vals → l.length = 1) →
      fuseList d vals =
        Except.ok (vals.map (fun cv =>
          match cv with
          | some l => l.headD d
          | none => d)) := by
  intro vals
  induction vals with
  | nil => intro _; rfl
  | cons v vs ih =>
    intro h
    simp only [fuseList, ih (fun l hl => h l (List.mem_cons_of_mem _ hl))]
    cases v with
    | none => simp [fuseOne, bind, Except.bind]
    | some l =>
      have hl : l.length = 1 := h l (List.mem_cons_self _ _)
      match l, hl with
      | [x], _ => simp [fuseOne, bind, Except.bind]

theorem fuseList_error_of_nonsingleton {T : Type} (d : T) :
    ∀ (vals : List (Option (List T))), (∃ l, some l ∈ vals ∧ l.length ≠ 1) →
      ∃ e, fuseList d vals = Except.error e := by
  intro vals
  induction vals with
  | nil => rintro ⟨l, hl, _⟩; exact absurd hl (List.not_mem_nil _)
  | cons v vs ih =>
    rintro ⟨l, hl, hlen⟩
    rcases List.mem_cons.mp hl with hv | hvs
    · refine ⟨"TLLM_CHECK(configValue.value().size() == 1)", ?_⟩
      simp only [fuseList, ← hv]
      match l, hlen with
      | [], _ => rfl
      | x :: y :: r, _ => rfl
      | [x], h => exact absurd rfl h
    · rcases ih ⟨l, hvs, hlen⟩ with ⟨e, he⟩
      simp only [fuseList]
      cases hv : fuseOne d v with
      | error e0 => exact ⟨e0, by simp [hv, bind, Except.bind]⟩
      | ok b => exact ⟨e, by simp [hv, he, bind, Except.bind]⟩

theorem fuseValues_ok_some_length {T : Type} (vals : List (Option (List T))) (d : T)
    (fused : List T) (h : fuseValues vals d = Except.ok (some fused)) :
    fused.length = vals.length := by
  unfold fuseValues at h
  cases hany : vals.any Option.isSome with
  | false => simp [hany] at h
  | true =>
    simp only [hany, if_true] at h
    cases hl : fuseList d vals with
    | error e => simp [hl, bind, Except.bind] at h
    | ok out =>
      simp only [hl, bind, Except.bind, Except.ok.injEq, Option.some.injEq] at h
      subst h
      exact fuseList_ok_length d vals out hl

theorem fuseList_replicate {T : Type} (d x : T) :
    ∀ m : Nat, fuseList d (List.replicate m (some [x])) = Except.ok (List.replicate m x) := by
  intro m
  induction m with
  | zero => rfl
  | succ m ih =>
    simp only [List.replicate_succ, fuseList, fuseOne, ih, bind, Except.bind]

theorem fuseValues_replicate {T : Type} (d x : T) (m : Nat) :
    fuseValues (some [x] :: List.replicate m (some [x])) d =
      Except.ok (some (x :: List.replicate m x)) := by
  unfold fuseValues
  have hany : (some [x] :: List.replicate m (some [x])).any Option.isSome = true := by
    simp
  simp only [hany, if_true, fuseList, fuseOne, fuseList_replicate, bind, Except.bind]

theorem getD_map_of_lt {α β : Type} [Inhabited α] [Inhabited β] (f : α → β)
    (l : List α) (i : Nat) (h : i < l.length) :
    (l.map f).getD i default = f (l.getD i default) := by
  rw [List.getD_eq_getElem _ _ (by simpa using h), List.getD_eq_getElem _ _ h,
    List.getElem_map]

theorem getD_mem_of_lt {α : Type} [Inhabited α] (l : List α) (i : Nat)
    (h : i < l.length) : l.getD i default ∈ l := by
  rw [List.getD_eq_getElem _ _ h]
  exact List.getElem_mem h

theorem except_bind_ok {ε α β : Type} {x : Except ε α} {k : α → Except ε β} {b : β}
    (h : x >>= k = Except.ok b) : ∃ a, x = Except.ok a ∧ k a = Except.ok b := by
  cases x with
  | error e => simp [bind, Except.bind] at h
  | ok a => exact ⟨a, rfl, by simpa [bind, Except.bind] using h⟩

/-- Inversion of the fusing constructor: a successful fuse of `c0 :: rest`
takes `beamWidth` and `normalizeLogProbs` from `c0` and every tunable field
from `fuseValues` over the corresponding per-config values. -/
theorem fuse_ok_fields {F : Type} [Zero F] (dp : DefaultDecodingParams F)
    (c0 : SamplingConfig F) (rest : List (SamplingConfig F)) (fc : SamplingConfig F)
    (h : SamplingConfig.fuse dp (c0 :: rest) = Except.ok fc) :
    fc.beamWidth = c0.beamWidth ∧
    fc.normalizeLogProbs = c0.normalizeLogProbs ∧
    fuseValues ((c0 :: rest).map (·.temperature)) dp.temperature = Except.ok fc.temperature ∧
    fuseValues ((c0 :: rest).map (·.minLength)) dp.minLength = Except.ok fc.minLength ∧
    fuseValues ((c0 :: rest).map (·.repetitionPenalty)) dp.repetitionPenalty
      = Except.ok fc.repetitionPenalty ∧
    fuseValues ((c0 :: rest).map (·.presencePenalty)) dp.presencePenalty
      = Except.ok fc.presencePenalty ∧
    fuseValues ((c0 :: rest).map (·.frequencyPenalty)) dp.frequencyPenalty
      = Except.ok fc.frequencyPenalty ∧
    fuseValues ((c0 :: rest).map (·.topK)) dp.topK = Except.ok fc.topK ∧
    fuseValues ((c0 :: rest).map (·.topP)) dp.topP = Except.ok fc.topP ∧
    fuseValues ((c0 :: rest).map (·.randomSeed)) dp.seed = Except.ok fc.randomSeed ∧
    fuseValues ((c0 :: rest).map (·.topPDecay)) dp.topPDecay = Except.ok fc.topPDecay ∧
    fuseValues ((c0 :: rest).map (·.topPMin)) dp.topPMin = Except.ok fc.topPMin ∧
    fuseValues ((c0 :: rest).map (·.topPResetIds)) dp.topPResetId
      = Except.ok fc.topPResetIds ∧
    fuseValues ((c0 :: rest).map (·.beamSearchDiversityRate)) dp.beamSearchDiversity
      = Except.ok fc.beamSearchDiversityRate ∧
    fuseValues ((c0 :: rest).map (·.lengthPenalty)) dp.lengthPenalty
      = Except.ok fc.lengthPenalty ∧
    fuseValues ((c0 :: rest).map (·.earlyStopping)) dp.earlyStopping
      = Except.ok fc.earlyStopping ∧
    fuseValues ((c0 :: rest).map (·.topKMedusaHeads)) dp.topKMedusaHeads
      = Except.ok fc.topKMedusaHeads ∧
    fuseValues ((c0 :: rest).map (·.draftAcceptanceThreshold)) (0 : F)
      = Except.ok fc.draftAcceptanceThreshold := by
  simp only [SamplingConfig.fuse] at h
  obtain ⟨temperature, h1, h⟩ := except_bind_ok h
  obtain ⟨minLength, h2, h⟩ := except_bind_ok h
  obtain ⟨repetitionPenalty, h3, h⟩ := except_bind_ok h
  obtain ⟨presencePenalty, h4, h⟩ := except_bind_ok h
  obtain ⟨frequencyPenalty, h5, h⟩ := except_bind_ok h
  obtain ⟨topK, h6, h⟩ := except_bind_ok h
  obtain ⟨topP, h7, h⟩ := except_bind_ok h
  obtain ⟨randomSeed, h8, h⟩ := except_bind_ok h
  obtain ⟨topPDecay, h9, h⟩ := except_bind_ok h
  obtain ⟨topPMin, h10, h⟩ := except_bind_ok h
  obtain ⟨topPResetIds, h11, h⟩ := except_bind_ok h
  obtain ⟨beamSearchDiversityRate, h12, h⟩ := except_bind_ok h
  obtain ⟨lengthPenalty, h13, h⟩ := except_bind_ok h
  obtain ⟨earlyStopping, h14, h⟩ := except_bind_ok h
  obtain ⟨topKMedusaHeads, h15, h⟩ := except_bind_ok h
  obtain ⟨draftAcceptanceThreshold, h16, h⟩ := except_bind_ok h
  simp only [Except.ok.injEq] at h
  subst h
  exact ⟨rfl, rfl, h1, h2, h3, h4, h5, h6, h7, h8, h9, h10, h11, h12, h13, h14, h15, h16⟩

/-! Claim theorems. -/

/-- C1: SamplingConfig fusion contract.  For every non-empty list of N
per-request field values and every default, `fuseValues` leaves the fused
field absent when no request specifies the field; when at least one request
specifies it and every specified value is a single scalar, the fused field is
the length-N vector holding, per position, the supplying request's scalar or
the documented default; a specified value of length other than 1 is an
error; and any produced fused vector has length exactly N. -/
theorem fuseValues_contract {T : Type} (vals : List (Option (List T))) (d : T)
    (hne : vals ≠ []) :
    ((∀ v ∈ vals, v = none) → fuseValues vals d = Except.ok none) ∧
    ((∃ v ∈ vals, v.isSome = true) → (∀ l, some l ∈ vals → l.length = 1) →
      fuseValues vals d =
        Except.ok (some (vals.map (fun cv =>
          match cv with
          | some l => l.headD d
          | none => d)))) ∧
    ((∃ v ∈ vals, v.isSome = true) → (∃ l, some l ∈ vals ∧ l.length ≠ 1) →
      ∃ e, fuseValues vals d = Except.error e) ∧
    (∀ fused, fuseValues vals d = Except.ok (some fused) →
      fused.length = vals.length) := by
  refine ⟨?_, ?_, ?_, ?_⟩
  · intro hall
    have hany : vals.any Option.isSome = false := by
      apply List.any_eq_false.mpr
      intro v hv
      rw [hall v hv]
      simp
    simp [fuseValues, hany]
  · rintro ⟨v, hv, hvs⟩ hsing
    have hany : vals.any Option.isSome = true := List.any_eq_true.mpr ⟨v, hv, hvs⟩
    simp [fuseValues, hany, fuseList_ok_of_singletons d vals hsing, bind, Except.bind]
  · rintro ⟨v, hv, hvs⟩ hbad
    have hany : vals.any Option.isSome = true := List.any_eq_true.mpr ⟨v, hv, hvs⟩
    rcases fuseList_error_of_nonsingleton d vals hbad with ⟨e, he⟩
    exact ⟨e, by simp [fuseValues, hany, he, bind, Except.bind]⟩
  · intro fused h
    unfold fuseValues at h
    cases hany : vals.any Option.isSome with
    | false => simp [hany] at h
    | true =>
      simp only [hany, if_true] at h
      cases hl : fuseList d vals with
      | error e => simp [hl, bind, Except.bind] at h
      | ok out =>
        simp only [hl, bind, Except.bind, Except.ok.injEq, Option.some.injEq] at h
        subst h
        exact fuseList_ok_length d vals out hl

/-- Witness for C1 at concrete inputs: a fully-absent field stays absent, a
mixed specified/unspecified field fuses to scalars and defaults, and a
non-singleton specified value is an error. -/
theorem fuseValues_contract_witness :
    fuseValues [(none : Option (List Int)), none] 7 = Except.ok none ∧
    fuseValues [some [(2 : Int)], none] 7 = Except.ok (some [2, 7]) ∧
    fuseValues [some ([] : List Int), some [5]] 7 ≠ Except.ok (some [7, 5]) ∧
    ([(2 : Int), 7].length = 2) := by
  refine ⟨?_, ?_, ?_, rfl⟩
  · exact (fuseValues_contract [none, none] 7 (by simp)).1 (by simp)
  · have h := (fuseValues_contract [some [(2 : Int)], none] 7 (by simp)).2.1
      ⟨some [2], by simp, rfl⟩
      (by
        intro l hl
        rcases List.mem_cons.mp hl with h1 | h1
        · simp only [Option.some.injEq] at h1
          subst h1
          rfl
        · rcases List.mem_cons.mp h1 with h2 | h2
          · exact absurd h2 (by simp)
          · exact absurd h2 (List.not_mem_nil _))
    simpa using h
  · obtain ⟨e, he⟩ := (fuseValues_contract [some ([] : List Int), some [5]] 7
      (by simp)).2.2.1 ⟨some [], by simp, rfl⟩ ⟨[], by simp, by simp⟩
    rw [he]
    simp

/-- C9: implicit fused-shape invariant.  Whenever the fusing constructor
succeeds, every field it produces as present is a vector of length exactly
the number of input configs — never the length-1 broadcast representation
(unless the batch itself has size 1). -/
theorem fuse_present_length {F : Type} [Zero F] (dp : DefaultDecodingParams F)
    (configs : List (SamplingConfig F)) (fc : SamplingConfig F)
    (h : SamplingConfig.fuse dp configs = Except.ok fc) :
    (∀ l, fc.temperature = some l → l.length = configs.length) ∧
    (∀ l, fc.minLength = some l → l.length = configs.length) ∧
    (∀ l, fc.repetitionPenalty = some l → l.length = configs.length) ∧
    (∀ l, fc.presencePenalty = some l → l.length = configs.length) ∧
    (∀ l, fc.frequencyPenalty = some l → l.length = configs.length) ∧
    (∀ l, fc.topK = some l → l.length = configs.length) ∧
    (∀ l, fc.topP = some l → l.length = configs.length) ∧
    (∀ l, fc.randomSeed = some l → l.length = configs.length) ∧
    (∀ l, fc.topPDecay = some l → l.length = configs.length) ∧
    (∀ l, fc.topPMin = some l → l.length = configs.length) ∧
    (∀ l, fc.topPResetIds = some l → l.length = configs.length) ∧
    (∀ l, fc.beamSearchDiversityRate = some l → l.length = configs.length) ∧
    (∀ l, fc.lengthPenalty = some l → l.length = configs.length) ∧
    (∀ l, fc.earlyStopping = some l → l.length = configs.length) ∧
    (∀ l, fc.topKMedusaHeads = some l → l.length = configs.length) ∧
    (∀ l, fc.draftAcceptanceThreshold = some l → l.length = configs.length) := by
  match configs with
  | [] => simp [SamplingConfig.fuse] at h
  | c0 :: rest =>
    obtain ⟨_, _, h1, h2, h3, h4, h5, h6, h7, h8, h9, h10, h11, h12, h13, h14, h15, h16⟩ :=
      fuse_ok_fields dp c0 rest fc h
    refine ⟨?_, ?_, ?_, ?_, ?_, ?_, ?_, ?_, ?_, ?_, ?_, ?_, ?_, ?_, ?_, ?_⟩ <;>
      intro l hl
    · have hlen := fuseValues_ok_some_length _ _ l (hl ▸ h1)
      simpa using hlen
    · have hlen := fuseValues_ok_some_length _ _ l (hl ▸ h2)
      simpa using hlen
    · have hlen := fuseValues_ok_some_length _ _ l (hl ▸ h3)
      simpa using hlen
    · have hlen := fuseValues_ok_some_length _ _ l (hl ▸ h4)
      simpa using hlen
    · have hlen := fuseValues_ok_some_length _ _ l (hl ▸ h5)
      simpa using hlen
    · have hlen := fuseValues_ok_some_length _ _ l (hl ▸ h6)
      simpa using hlen
    · have hlen := fuseValues_ok_some_length _ _ l (hl ▸ h7)
      simpa using hlen
    · have hlen := fuseValues_ok_some_length _ _ l (hl ▸ h8)
      simpa using hlen
    · have hlen := fuseValues_ok_some_length _ _ l (hl ▸ h9)
      simpa using hlen
    · have hlen := fuseValues_ok_some_length _ _ l (hl ▸ h10)
      simpa using hlen
    · have hlen := fuseValues_ok_some_length _ _ l (hl ▸ h11)
      simpa using hlen
    · have hlen := fuseValues_ok_some_length _ _ l (hl ▸ h12)
      simpa using hlen
    · have hlen := fuseValues_ok_some_length _ _ l (hl ▸ h13)
      simpa using hlen
    · have hlen := fuseValues_ok_some_length _ _ l (hl ▸ h14)
      simpa using hlen
    · have hlen := fuseValues_ok_some_length _ _ l (hl ▸ h15)
      simpa using hlen
    · have hlen := fuseValues_ok_some_length _ _ l (hl ▸ h16)
      simpa using hlen

/-- Witness for C9: fusing two configs where only the first specifies a
temperature produces the present temperature vector [2, 1], of length
exactly 2. -/
theorem fuse_present_length_witness : [(2 : Int), 1].length = 2 := by
  have h := (fuse_present_length
      (DefaultDecodingParams.mk (1 : Int) 1 1 1 1 1 1 1 1 1 1 1 1 1 [])
      [SamplingConfig.mk 4 (some [(2 : Int)]) none none none none none none none
         none none none none none none none none none,
       SamplingConfig.mk 4 none none none none none none none none
         none none none none none none none none none]
      (SamplingConfig.mk 4 (some [(2 : Int), 1]) none none none none none none none
         none none none none none none none none none)
      rfl).1
  exact h [2, 1] rfl

/-- C10: implicit first-config precedence.  The fusing constructor rejects an
empty config list, and on a non-empty list it takes `beamWidth` and
`normalizeLogProbs` from the first config only, whatever the remaining
configs hold. -/
theorem fuse_front_precedence {F : Type} [Zero F] (dp : DefaultDecodingParams F) :
    SamplingConfig.fuse dp ([] : List (SamplingConfig F))
        = Except.error "TLLM_CHECK(configs.size() > 0)" ∧
    ∀ (c : SamplingConfig F) (rest : List (SamplingConfig F)) (fc : SamplingConfig F),
      SamplingConfig.fuse dp (c :: rest) = Except.ok fc →
        fc.beamWidth = c.beamWidth ∧ fc.normalizeLogProbs = c.normalizeLogProbs := by
  refine ⟨rfl, ?_⟩
  intro c rest fc h
  have h' := fuse_ok_fields dp c rest fc h
  exact ⟨h'.1, h'.2.1⟩

/-- Witness for C10: fusing two all-default configs with different
`beamWidth` and `normalizeLogProbs` keeps the first config's values. -/
theorem fuse_front_precedence_witness :
    SamplingConfig.fuse (DefaultDecodingParams.mk (1 : Int) 1 1 1 1 1 1 1 1 1 1 1 1 1 [])
        ([] : List (SamplingConfig Int)) = Except.error "TLLM_CHECK(configs.size() > 0)" ∧
    (SamplingConfig.mk 3 none none none none none none none none
        none none none none none none none none (some true) : SamplingConfig Int).beamWidth
      = 3 ∧
    (SamplingConfig.mk 3 none none none none none none none none
        none none none none none none none none (some true) : SamplingConfig Int).normalizeLogProbs
      = some true := by
  have h := (fuse_front_precedence
      (DefaultDecodingParams.mk (1 : Int) 1 1 1 1 1 1 1 1 1 1 1 1 1 [])).2
    (SamplingConfig.mk 3 none none none none none none none none
      none none none none none none none none (some true))
    [SamplingConfig.mk 5 none none none none none none none none
      none none none none none none none none (some false)]
    (SamplingConfig.mk 3 none none none none none none none none
      none none none none none none none none (some true))
    rfl
  exact ⟨(fuse_front_precedence
      (DefaultDecodingParams.mk (1 : Int) 1 1 1 1 1 1 1 1 1 1 1 1 1 [])).1,
    h.1, h.2⟩

/-- C8: fusion idempotence.  Fusing N ≥ 1 copies of one fully specified
config (every tunable field a length-1 vector) succeeds and yields the
broadcast of that config to batch size N: every field the length-N vector of
its scalar, `beamWidth` (and `normalizeLogProbs`) unchanged. -/
theorem fuse_idempotent {F : Type} [Zero F] (dp : DefaultDecodingParams F)
    (c : SamplingConfig F)
    (t rp pp fp tp tpd tpm bsd lp dat : F) (ml tk tpr es : Int) (rs : Nat)
    (tkm : List Int)
    (ht : c.temperature = some [t])
    (hml : c.minLength = some [ml])
    (hrp : c.repetitionPenalty = some [rp])
    (hpp : c.presencePenalty = some [pp])
    (hfp : c.frequencyPenalty = some [fp])
    (htk : c.topK = some [tk])
    (htp : c.topP = some [tp])
    (hrs : c.randomSeed = some [rs])
    (htpd : c.topPDecay = some [tpd])
    (htpm : c.topPMin = some [tpm])
    (htpr : c.topPResetIds = some [tpr])
    (hbsd : c.beamSearchDiversityRate = some [bsd])
    (hlp : c.lengthPenalty = some [lp])
    (hes : c.earlyStopping = some [es])
    (hdat : c.draftAcceptanceThreshold = some [dat])
    (htkm : c.topKMedusaHeads = some [tkm])
    (N : Nat) (hN : 1 ≤ N) :
    SamplingConfig.fuse dp (List.replicate N c) = Except.ok
      (SamplingConfig.mk c.beamWidth
        (some (List.replicate N t)) (some (List.replicate N ml))
        (some (List.replicate N rp)) (some (List.replicate N pp))
        (some (List.replicate N fp)) (some (List.replicate N tk))
        (some (List.replicate N tp)) (some (List.replicate N rs))
        (some (List.replicate N tpd)) (some (List.replicate N tpm))
        (some (List.replicate N tpr)) (some (List.replicate N bsd))
        (some (List.replicate N lp)) (some (List.replicate N es))
        (some (List.replicate N dat)) (some (List.replicate N tkm))
        c.normalizeLogProbs) := by
  obtain ⟨m, rfl⟩ : ∃ m, N = m + 1 := ⟨N - 1, by omega⟩
  simp only [List.replicate_succ, SamplingConfig.fuse, List.map_cons, List.map_replicate,
    ht, hml, hrp, hpp, hfp, htk, htp, hrs, htpd, htpm, htpr, hbsd, hlp, hes, hdat, htkm,
    fuseValues_replicate, bind, Except.bind]

/-- Witness for C8: fusing two copies of one fully specified config
broadcasts each scalar to a length-2 vector. -/
theorem fuse_idempotent_witness :
    SamplingConfig.fuse (DefaultDecodingParams.mk (9 : Int) 9 9 9 9 9 9 9 9 9 9 9 9 9 [])
      (List.replicate 2 (SamplingConfig.mk 4 (some [(1 : Int)]) (some [2]) (some [3])
        (some [4]) (some [5]) (some [6]) (some [7]) (some [8]) (some [9]) (some [10])
        (some [11]) (some [12]) (some [13]) (some [14]) (some [15]) (some [[16]])
        (some true))) = Except.ok
      (SamplingConfig.mk 4 (some [1, 1]) (some [2, 2]) (some [3, 3]) (some [4, 4])
        (some [5, 5]) (some [6, 6]) (some [7, 7]) (some [8, 8]) (some [9, 9])
        (some [10, 10]) (some [11, 11]) (some [12, 12]) (some [13, 13]) (some [14, 14])
        (some [15, 15]) (some [[16], [16]]) (some true)) := by
  exact fuse_idempotent (DefaultDecodingParams.mk (9 : Int) 9 9 9 9 9 9 9 9 9 9 9 9 9 [])
    (SamplingConfig.mk 4 (some [(1 : Int)]) (some [2]) (some [3]) (some [4]) (some [5])
      (some [6]) (some [7]) (some [8]) (some [9]) (some [10]) (some [11]) (some [12])
      (some [13]) (some [14]) (some [15]) (some [[16]]) (some true))
    1 3 4 5 7 9 10 12 13 15 2 6 11 14 8 [16]
    rfl rfl rfl rfl rfl rfl rfl rfl rfl rfl rfl rfl rfl rfl rfl rfl
    2 (by decide)

/-- C2: stage-list factory.  Every produced stage list starts with the
penalty layer; the top-k, top-p, top-k-and-top-p and beam-search modes get
exactly Penalty, BanWords, Decoding, StopCriteria; Medusa gets exactly
Penalty, Decoding, StopCriteria; any mode outside these families — in
particular None — is a configuration error at setup. -/
theorem createDecodingLayerTypes_spec :
    (∀ (m : DecodingMode) (ts : List DecodingLayers_t),
      createDecodingLayerTypes m = Except.ok ts →
        ts.head? = some DecodingLayers_t.PENALTY_LAYER) ∧
    createDecodingLayerTypes DecodingMode.TopK = Except.ok
      [DecodingLayers_t.PENALTY_LAYER, DecodingLayers_t.BAN_WORDS_LAYER,
       DecodingLayers_t.DECODING_LAYER, DecodingLayers_t.STOP_CRITERIA_LAYER] ∧
    createDecodingLayerTypes DecodingMode.TopP = Except.ok
      [DecodingLayers_t.PENALTY_LAYER, DecodingLayers_t.BAN_WORDS_LAYER,
       DecodingLayers_t.DECODING_LAYER, DecodingLayers_t.STOP_CRITERIA_LAYER] ∧
    createDecodingLayerTypes DecodingMode.TopKTopP = Except.ok
      [DecodingLayers_t.PENALTY_LAYER, DecodingLayers_t.BAN_WORDS_LAYER,
       DecodingLayers_t.DECODING_LAYER, DecodingLayers_t.STOP_CRITERIA_LAYER] ∧
    createDecodingLayerTypes DecodingMode.BeamSearch = Except.ok
      [DecodingLayers_t.PENALTY_LAYER, DecodingLayers_t.BAN_WORDS_LAYER,
       DecodingLayers_t.DECODING_LAYER, DecodingLayers_t.STOP_CRITERIA_LAYER] ∧
    createDecodingLayerTypes DecodingMode.Medusa = Except.ok
      [DecodingLayers_t.PENALTY_LAYER, DecodingLayers_t.DECODING_LAYER,
       DecodingLayers_t.STOP_CRITERIA_LAYER] ∧
    (∀ m : DecodingMode, m.isTopKorTopP = false → m.isBeamSearch = false →
      m.isMedusa = false →
      createDecodingLayerTypes m = Except.error "layer types are not defined for mode") ∧
    createDecodingLayerTypes DecodingMode.None
      = Except.error "layer types are not defined for mode" := by
  refine ⟨?_, rfl, rfl, rfl, rfl, rfl, ?_, rfl⟩
  · intro m ts h
    unfold createDecodingLayerTypes at h
    split at h
    · cases h; rfl
    · split at h
      · cases h; rfl
      · simp at h
  · intro m h1 h2 h3
    simp [createDecodingLayerTypes, h1, h2, h3]

/-- Witness for C2: the list produced for the top-k mode indeed starts with
the penalty layer, and the None mode is rejected. -/
theorem createDecodingLayerTypes_spec_witness :
    ([DecodingLayers_t.PENALTY_LAYER, DecodingLayers_t.BAN_WORDS_LAYER,
       DecodingLayers_t.DECODING_LAYER, DecodingLayers_t.STOP_CRITERIA_LAYER].head?
      = some DecodingLayers_t.PENALTY_LAYER) ∧
    createDecodingLayerTypes DecodingMode.None
      = Except.error "layer types are not defined for mode" := by
  constructor
  · exact createDecodingLayerTypes_spec.1 DecodingMode.TopK _ rfl
  · exact createDecodingLayerTypes_spec.2.2.2.2.2.2.1 DecodingMode.None rfl rfl rfl

/-- C7: random-seed setup.  A single seed is broadcast to every active
slot's random state; a length-batchSize seed vector is used per slot; any
other length is a configuration error; an absent seed initialises every
slot's state from the documented default seed 0, never failing. -/
theorem setupRandomSeeds_spec (batchSize : Nat) :
    (∀ s : Nat, setupRandomSeeds (some [s]) batchSize
        = Except.ok (List.replicate batchSize s)) ∧
    (∀ seeds : List Nat, seeds.length = batchSize →
      setupRandomSeeds (some seeds) batchSize = Except.ok seeds) ∧
    (∀ seeds : List Nat, seeds.length ≠ 1 → seeds.length ≠ batchSize →
      setupRandomSeeds (some seeds) batchSize
        = Except.error "Random seed vector size mismatch.") ∧
    setupRandomSeeds none batchSize = Except.ok (List.replicate batchSize 0) := by
  refine ⟨?_, ?_, ?_, rfl⟩
  · intro s
    simp [setupRandomSeeds]
  · intro seeds h
    by_cases h1 : seeds.length = 1
    · rcases List.length_eq_one.mp h1 with ⟨a, rfl⟩
      simp only [List.length_singleton] at h
      subst h
      rfl
    · simp only [setupRandomSeeds, h1, if_false, h, if_pos rfl, if_true]
      split
      · exact absurd (h.trans (by assumption)) h1
      · rfl
  · intro seeds h1 h2
    simp [setupRandomSeeds, h1, h2]

/-- Witness for C7 at batch size 3: broadcast of a single seed, per-slot
seeds, a length-2 vector rejected, and the absent-seed default 0. -/
theorem setupRandomSeeds_spec_witness :
    setupRandomSeeds (some [5]) 3 = Except.ok [5, 5, 5] ∧
    setupRandomSeeds (some [1, 2, 3]) 3 = Except.ok [1, 2, 3] ∧
    setupRandomSeeds (some [1, 2]) 3 = Except.error "Random seed vector size mismatch." ∧
    setupRandomSeeds none 3 = Except.ok [0, 0, 0] := by
  refine ⟨?_, ?_, ?_, ?_⟩
  · exact (setupRandomSeeds_spec 3).1 5
  · exact (setupRandomSeeds_spec 3).2.1 [1, 2, 3] rfl
  · exact (setupRandomSeeds_spec 3).2.2.1 [1, 2] (by decide) (by decide)
  · exact (setupRandomSeeds_spec 3).2.2.2

/-- C4: max-length stop criterion.  Starting from unfinished beams, after
the length criterion runs every (slot, beam) is finished-by-max-length
exactly when that beam's sequence length is at least the slot's configured
limit, and each slot's finished-sum equals the count of its beams whose
length meets or exceeds that slot's own limit. -/
theorem lengthCriterion_spec (slots : List SlotState)
    (hinit : ∀ s ∈ slots, ∀ b ∈ s.beams, b.2 = FinishedState.notFinished)
    (si : Nat) (hsi : si < slots.length) :
    (∀ bi, bi < (slots.getD si default).beams.length →
      ((((lengthCriterion slots).1.getD si default).beams.getD bi default).2
          = FinishedState.finishedMaxLength
        ↔ (slots.getD si default).limit ≤ ((slots.getD si default).beams.getD bi default).1)) ∧
    (lengthCriterion slots).2.getD si 0
      = ((slots.getD si default).beams.filter
          (fun b => decide ((slots.getD si default).limit ≤ b.1))).length := by
  have hsmem : slots.getD si default ∈ slots := getD_mem_of_lt slots si hsi
  have hmap1 : (lengthCriterion slots).1.getD si default
      = lengthCriterionSlot (slots.getD si default) :=
    getD_map_of_lt lengthCriterionSlot slots si hsi
  have hmap2 : (lengthCriterion slots).2.getD si 0
      = slotFinishedSum (lengthCriterionSlot (slots.getD si default)) :=
    getD_map_of_lt (fun s => slotFinishedSum (lengthCriterionSlot s)) slots si hsi
  constructor
  · intro bi hbi
    rw [hmap1]
    have hbmem : (slots.getD si default).beams.getD bi default
        ∈ (slots.getD si default).beams := getD_mem_of_lt _ bi hbi
    have hbeam : (lengthCriterionSlot (slots.getD si default)).beams.getD bi default
        = (((slots.getD si default).beams.getD bi default).1,
           if (slots.getD si default).limit ≤ ((slots.getD si default).beams.getD bi default).1
           then FinishedState.finishedMaxLength
           else ((slots.getD si default).beams.getD bi default).2) := by
      simpa [lengthCriterionSlot] using
        getD_map_of_lt
          (fun b => (b.1,
            if (slots.getD si default).limit ≤ b.1 then FinishedState.finishedMaxLength
            else b.2))
          (slots.getD si default).beams bi hbi
    by_cases hle : (slots.getD si default).limit
        ≤ ((slots.getD si default).beams.getD bi default).1
    · rw [hbeam, if_pos hle]
      exact iff_of_true rfl hle
    · rw [hbeam, if_neg hle]
      refine iff_of_false ?_ hle
      rw [hinit (slots.getD si default) hsmem _ hbmem]
      simp
  · rw [hmap2]
    unfold slotFinishedSum lengthCriterionSlot
    rw [List.filter_map, List.length_map]
    apply congrArg List.length
    apply List.filter_congr
    intro b hbmem
    dsimp only [Function.comp]
    by_cases hle : (slots.getD si default).limit ≤ b.1
    · rw [if_pos hle]
      simp only [FinishedState.isFinished]
      exact (decide_eq_true hle).symm
    · rw [if_neg hle, hinit (slots.getD si default) hsmem b hbmem]
      simp only [FinishedState.isFinished]
      exact (decide_eq_false hle).symm

/-- Witness for C4 at one concrete batch: a slot with limit 4 and beam
lengths 5 and 3 finishes exactly the first beam, with finished-sum 1. -/
theorem lengthCriterion_spec_witness :
    ((((lengthCriterion [SlotState.mk 4 [(5, FinishedState.notFinished),
          (3, FinishedState.notFinished)]]).1.getD 0 default).beams.getD 0 default).2
        = FinishedState.finishedMaxLength) ∧
    ¬ ((((lengthCriterion [SlotState.mk 4 [(5, FinishedState.notFinished),
          (3, FinishedState.notFinished)]]).1.getD 0 default).beams.getD 1 default).2
        = FinishedState.finishedMaxLength) ∧
    (lengthCriterion [SlotState.mk 4 [(5, FinishedState.notFinished),
        (3, FinishedState.notFinished)]]).2.getD 0 0 = 1 := by
  have h := lengthCriterion_spec
    [SlotState.mk 4 [(5, FinishedState.notFinished), (3, FinishedState.notFinished)]]
    (by
      intro s hs b hb
      rcases List.mem_singleton.mp hs with rfl
      simp at hb
      rcases hb with rfl | rfl <;> rfl)
    0 (by decide)
  refine ⟨?_, ?_, ?_⟩
  · exact (h.1 0 (by decide)).mpr (by decide)
  · intro hc
    have := (h.1 1 (by decide)).mp hc
    simp at this
  · rw [h.2]
    rfl

/-- A stop phrase matches exactly when it is a non-empty suffix of the
emitted sequence truncated at the current length. -/
theorem matchesStopWord_iff (tokens : List Int) (n : Nat) (w : List Int)
    (h : n ≤ tokens.length) :
    matchesStopWord tokens n w = true ↔ w ≠ [] ∧ w <:+ tokens.take n := by
  have hlen : (tokens.take n).length = n := by
    simp [List.length_take, Nat.min_eq_left h]
  constructor
  · intro hm
    simp only [matchesStopWord, Bool.and_eq_true, Bool.not_eq_true',
      List.isEmpty_eq_false, decide_eq_true_eq] at hm
    obtain ⟨⟨hw, hwn⟩, hdrop⟩ := hm
    refine ⟨hw, ?_⟩
    rw [List.suffix_iff_eq_drop, hlen]
    exact hdrop.symm
  · rintro ⟨hw, hsuf⟩
    have hwn : w.length ≤ n := hlen ▸ hsuf.length_le
    have hdrop : (tokens.take n).drop (n - w.length) = w := by
      have := List.suffix_iff_eq_drop.mp hsuf
      rw [hlen] at this
      exact this.symm
    simp only [matchesStopWord, Bool.and_eq_true, Bool.not_eq_true',
      List.isEmpty_eq_false, decide_eq_true_eq]
    exact ⟨⟨hw, hwn⟩, hdrop⟩

/-- C5: stop-words stop criterion.  A beam that was not finished is marked
finished-by-stop-words exactly when some configured stop phrase occurs as a
contiguous subsequence of the emitted tokens ending exactly at the current
sequence length; a beam matching no phrase remains not finished; and the
phrase {13,14,15} over the emitted sequence 0,1,…,15 finishes the beam
exactly at the step where token 15 is appended (length 16) and not before. -/
theorem stopWordsCriterion_spec (stopWords : List (List Int)) (tokens : List Int)
    (n : Nat) (h : n ≤ tokens.length) :
    (stopWordsCriterionBeam stopWords tokens n FinishedState.notFinished
        = FinishedState.finishedStopWords
      ↔ ∃ w ∈ stopWords, w ≠ [] ∧ w <:+ tokens.take n) ∧
    ((¬ ∃ w ∈ stopWords, w ≠ [] ∧ w <:+ tokens.take n) →
      stopWordsCriterionBeam stopWords tokens n FinishedState.notFinished
        = FinishedState.notFinished) ∧
    (stopWordsCriterionBeam [[13, 14, 15]]
        ((List.range 16).map (fun i => (i : Int))) 16 FinishedState.notFinished
      = FinishedState.finishedStopWords) ∧
    (∀ k, k < 16 → stopWordsCriterionBeam [[13, 14, 15]]
        ((List.range 16).map (fun i => (i : Int))) k FinishedState.notFinished
      = FinishedState.notFinished) := by
  have hchar : stopWords.any (matchesStopWord tokens n) = true
      ↔ ∃ w ∈ stopWords, w ≠ [] ∧ w <:+ tokens.take n := by
    rw [List.any_eq_true]
    constructor
    · rintro ⟨w, hwmem, hwm⟩
      exact ⟨w, hwmem, (matchesStopWord_iff tokens n w h).mp hwm⟩
    · rintro ⟨w, hwmem, hwp⟩
      exact ⟨w, hwmem, (matchesStopWord_iff tokens n w h).mpr hwp⟩
  refine ⟨?_, ?_, by decide, by decide⟩
  · unfold stopWordsCriterionBeam
    cases hany : stopWords.any (matchesStopWord tokens n) with
    | true =>
      rw [if_pos rfl]
      exact iff_of_true rfl (hchar.mp hany)
    | false =>
      rw [if_neg (by simp)]
      refine iff_of_false (by simp) ?_
      intro hex
      rw [hchar.mpr hex] at hany
      cases hany
  · intro hex
    unfold stopWordsCriterionBeam
    cases hany : stopWords.any (matchesStopWord tokens n) with
    | true => exact absurd (hchar.mp hany) hex
    | false => simp

/-- Witness for C5: the phrase {13,14,15} finishes the beam at length 16 and
leaves it unfinished at length 15. -/
theorem stopWordsCriterion_spec_witness :
    (stopWordsCriterionBeam [[13, 14, 15]]
        ((List.range 16).map (fun i => (i : Int))) 16 FinishedState.notFinished
      = FinishedState.finishedStopWords) ∧
    (stopWordsCriterionBeam [[13, 14, 15]]
        ((List.range 16).map (fun i => (i : Int))) 15 FinishedState.notFinished
      = FinishedState.notFinished) := by
  have h := stopWordsCriterion_spec [[13, 14, 15]]
    ((List.range 16).map (fun i => (i : Int))) 16 (by decide)
  exact ⟨h.2.2.1, h.2.2.2 15 (by decide)⟩

theorem acceptLen_getD_ne_neg_one (treeTokens : List Int) :
    ∀ (path targets : List Int) (d : Nat),
      d < acceptLen treeTokens path targets → path.getD d 0 ≠ -1 := by
  intro path
  induction path with
  | nil =>
    intro targets d hd
    simp [acceptLen] at hd
  | cons p ps ih =>
    intro targets d hd
    cases targets with
    | nil => simp [acceptLen] at hd
    | cons t ts =>
      simp only [acceptLen] at hd
      split at hd
      · rename_i hcond
        cases d with
        | zero =>
          simp only [List.getD_cons_zero]
          intro hp
          rw [hp] at hcond
          exact absurd hcond.1 (by decide)
        | succ d =>
          simp only [List.getD_cons_succ]
          exact ih ts d (by omega)
      · omega

/-- C3: speculative tree verification.  Over the path tree
{0,1,2 / 0,3,-1} (tree-slot tokens 4, 0, 2 and an arbitrary fourth token)
with target-model realized tokens [4,0,2], verification accepts length 3 —
the chosen path is the first one and its tokens [4,0,2] are appended; if the
target token at the second depth mismatches every candidate, the accepted
length drops to 1, the tie between the two length-1 paths breaking toward
the first-listed path; and no position inside an accepted prefix ever holds
the unused-slot marker −1. -/
theorem medusaAcceptance_spec :
    (∀ t3 : Int,
      bestPath [4, 0, 2, t3] [4, 0, 2] [[0, 1, 2], [0, 3, -1]] = (0, 3) ∧
      acceptedTokens [4, 0, 2, t3] [4, 0, 2] [[0, 1, 2], [0, 3, -1]] = [4, 0, 2]) ∧
    (∀ t3 X : Int, X ≠ 0 → X ≠ t3 →
      bestPath [4, 0, 2, t3] [4, X, 2] [[0, 1, 2], [0, 3, -1]] = (0, 1)) ∧
    (∀ (treeTokens path targets : List Int) (d : Nat),
      d < acceptLen treeTokens path targets → path.getD d 0 ≠ -1) := by
  refine ⟨?_, ?_, acceptLen_getD_ne_neg_one⟩
  · intro t3
    by_cases ht : t3 = (0 : Int)
    · subst ht
      exact ⟨by decide, by decide⟩
    · have h1 : acceptLen [4, 0, 2, t3] [0, 1, 2] [4, 0, 2] = 3 := by
        simp [acceptLen, List.get?]
      have h2 : acceptLen [4, 0, 2, t3] [0, 3, -1] [4, 0, 2] = 1 := by
        simp [acceptLen, List.get?, ht]
      constructor
      · simp [bestPath, h1, h2]
      · simp [acceptedTokens, bestPath, h1, h2]
  · intro t3 X hX0 hXt3
    have h1 : acceptLen [4, 0, 2, t3] [0, 1, 2] [4, X, 2] = 1 := by
      simp [acceptLen, List.get?, Ne.symm hX0]
    have h2 : acceptLen [4, 0, 2, t3] [0, 3, -1] [4, X, 2] = 1 := by
      simp [acceptLen, List.get?, Ne.symm hXt3]
    simp [bestPath, h1, h2]

/-- Witness for C3 at concrete tokens: the full-match acceptance of length
3 through the first path, the mismatch case of length 1, and a concrete
accepted position differing from −1. -/
theorem medusaAcceptance_spec_witness :
    bestPath [4, 0, 2, 7] [4, 0, 2] [[0, 1, 2], [0, 3, -1]] = (0, 3) ∧
    acceptedTokens [4, 0, 2, 7] [4, 0, 2] [[0, 1, 2], [0, 3, -1]] = [4, 0, 2] ∧
    bestPath [4, 0, 2, 7] [4, 9, 2] [[0, 1, 2], [0, 3, -1]] = (0, 1) ∧
    ([0, 1, 2] : List Int).getD 2 0 ≠ -1 := by
  refine ⟨(medusaAcceptance_spec.1 7).1, (medusaAcceptance_spec.1 7).2,
    medusaAcceptance_spec.2.1 7 9 (by decide) (by decide),
    medusaAcceptance_spec.2.2 [4, 0, 2, 7] [0, 1, 2] [4, 0, 2] 2 (by decide)⟩

/-- C6: softmax skip optimization.  In `SamplingLayer::forward` the masked
softmax is skipped exactly when the decoding mode does not include top-p and
neither cumulative nor per-step output log-probabilities are requested; and
skipping is sound for token choice: the greedy selection (first maximal
entry) over the unnormalized logits row coincides with the one over its
softmax. -/
theorem skipSoftMax_spec :
    (∀ (m : DecodingMode) (c o : Bool),
      skipSoftMax m c o = true ↔ m.isTopP = false ∧ c = false ∧ o = false) ∧
    (∀ (l : List ℝ) (i : Nat), firstArgMax (softmax l) i ↔ firstArgMax l i) := by
  constructor
  · intro m c o
    cases hm : m.isTopP <;> cases c <;> cases o <;> simp [skipSoftMax, hm]
  · intro l i
    rcases eq_or_ne l [] with rfl | hl
    · simp [softmax, firstArgMax]
    · have hS : 0 < (l.map Real.exp).sum := by
        apply List.sum_pos
        · intro x hx
          rcases List.mem_map.mp hx with ⟨a, _, rfl⟩
          exact Real.exp_pos a
        · simpa using hl
      have hlen : (softmax l).length = l.length := by simp [softmax]
      have hval : ∀ j, j < l.length →
          (softmax l).getD j 0 = Real.exp (l.getD j 0) / (l.map Real.exp).sum := by
        intro j hj
        rw [softmax, List.getD_eq_getElem _ _ (by simpa using hj), List.getElem_map,
          List.getD_eq_getElem _ _ hj]
      unfold firstArgMax
      constructor
      · rintro ⟨h1, h2, h3⟩
        rw [hlen] at h1
        refine ⟨h1, fun j hj => ?_, fun j hj => ?_⟩
        · have h := h2 j (by rwa [hlen])
          rw [hval j hj, hval i h1] at h
          exact Real.exp_le_exp.mp ((div_le_div_iff_of_pos_right hS).mp h)
        · have h := h3 j hj
          have hji : j < l.length := lt_trans hj h1
          rw [hval j hji, hval i h1] at h
          exact Real.exp_lt_exp.mp ((div_lt_div_iff_of_pos_right hS).mp h)
      · rintro ⟨h1, h2, h3⟩
        refine ⟨by rwa [hlen], fun j hj => ?_, fun j hj => ?_⟩
        · rw [hlen] at hj
          rw [hval j hj, hval i h1]
          exact (div_le_div_iff_of_pos_right hS).mpr (Real.exp_le_exp.mpr (h2 j hj))
        · rw [hval j (lt_trans hj h1), hval i h1]
          exact (div_lt_div_iff_of_pos_right hS).mpr (Real.exp_lt_exp.mpr (h3 j hj))

end TensorRTLLM
